import Mathlib

/-!
Verification of `query.go` (package `phonenumbers`).

A shallow embedding of `SplitPhone` and `ParsePhone` together with the parts of the Go
standard library they call (`strings.FieldsFunc`, `unicode.IsNumber`), followed by the
properties established about them.

A Go string is represented by the sequence of runes that `for i, r := range s` yields over
it (a Lean `String`).  A byte that is not part of a well-formed UTF-8 sequence is yielded by
`range` as U+FFFD, which `SplitPhone` treats as a separator, so such bytes never reach a
token and the rune view loses nothing that `SplitPhone` can observe.  Indices into a string
count runes where Go counts bytes.
-/

namespace unicode

/-- Go: `unicode.MaxLatin1`. -/
def MaxLatin1 : Nat := 0xFF

/-- The entries of Go's `unicode.properties` table (indexed by a Latin-1 code point) that
carry the `pN` bit: `'0'..'9'`, `'²'`, `'³'`, `'¹'`, `'¼'`, `'½'`, `'¾'`. -/
def propertiesN (r : Nat) : Bool :=
  (0x30 ≤ r && r ≤ 0x39) || r == 0xB2 || r == 0xB3 || r == 0xB9 ||
    r == 0xBC || r == 0xBD || r == 0xBE

/-- The 16-bit ranges of Go's `unicode.N` (Unicode general category N, that is Nd, Nl and
No, of Unicode 15.0.0) above Latin-1, as inclusive `(Lo, Hi)` pairs with stride 1. -/
def N_R16 : List (Nat × Nat) := [
  (0x0660, 0x0669), (0x06f0, 0x06f9), (0x07c0, 0x07c9), (0x0966, 0x096f), (0x09e6, 0x09ef),
  (0x09f4, 0x09f9), (0x0a66, 0x0a6f), (0x0ae6, 0x0aef), (0x0b66, 0x0b6f), (0x0b72, 0x0b77),
  (0x0be6, 0x0bf2), (0x0c66, 0x0c6f), (0x0c78, 0x0c7e), (0x0ce6, 0x0cef), (0x0d58, 0x0d5e),
  (0x0d66, 0x0d78), (0x0de6, 0x0def), (0x0e50, 0x0e59), (0x0ed0, 0x0ed9), (0x0f20, 0x0f33),
  (0x1040, 0x1049), (0x1090, 0x1099), (0x1369, 0x137c), (0x16ee, 0x16f0), (0x17e0, 0x17e9),
  (0x17f0, 0x17f9), (0x1810, 0x1819), (0x1946, 0x194f), (0x19d0, 0x19da), (0x1a80, 0x1a89),
  (0x1a90, 0x1a99), (0x1b50, 0x1b59), (0x1bb0, 0x1bb9), (0x1c40, 0x1c49), (0x1c50, 0x1c59),
  (0x2070, 0x2070), (0x2074, 0x2079), (0x2080, 0x2089), (0x2150, 0x2182), (0x2185, 0x2189),
  (0x2460, 0x249b), (0x24ea, 0x24ff), (0x2776, 0x2793), (0x2cfd, 0x2cfd), (0x3007, 0x3007),
  (0x3021, 0x3029), (0x3038, 0x303a), (0x3192, 0x3195), (0x3220, 0x3229), (0x3248, 0x324f),
  (0x3251, 0x325f), (0x3280, 0x3289), (0x32b1, 0x32bf), (0xa620, 0xa629), (0xa6e6, 0xa6ef),
  (0xa830, 0xa835), (0xa8d0, 0xa8d9), (0xa900, 0xa909), (0xa9d0, 0xa9d9), (0xa9f0, 0xa9f9),
  (0xaa50, 0xaa59), (0xabf0, 0xabf9), (0xff10, 0xff19)]

/-- The 32-bit ranges of Go's `unicode.N`, as inclusive `(Lo, Hi)` pairs with stride 1. -/
def N_R32 : List (Nat × Nat) := [
  (0x10107, 0x10133), (0x10140, 0x10178), (0x1018a, 0x1018b), (0x102e1, 0x102fb),
  (0x10320, 0x10323), (0x10341, 0x10341), (0x1034a, 0x1034a), (0x103d1, 0x103d5),
  (0x104a0, 0x104a9), (0x10858, 0x1085f), (0x10879, 0x1087f), (0x108a7, 0x108af),
  (0x108fb, 0x108ff), (0x10916, 0x1091b), (0x109bc, 0x109bd), (0x109c0, 0x109cf),
  (0x109d2, 0x109ff), (0x10a40, 0x10a48), (0x10a7d, 0x10a7e), (0x10a9d, 0x10a9f),
  (0x10aeb, 0x10aef), (0x10b58, 0x10b5f), (0x10b78, 0x10b7f), (0x10ba9, 0x10baf),
  (0x10cfa, 0x10cff), (0x10d30, 0x10d39), (0x10e60, 0x10e7e), (0x10f1d, 0x10f26),
  (0x10f51, 0x10f54), (0x10fc5, 0x10fcb), (0x11052, 0x1106f), (0x110f0, 0x110f9),
  (0x11136, 0x1113f), (0x111d0, 0x111d9), (0x111e1, 0x111f4), (0x112f0, 0x112f9),
  (0x11450, 0x11459), (0x114d0, 0x114d9), (0x11650, 0x11659), (0x116c0, 0x116c9),
  (0x11730, 0x1173b), (0x118e0, 0x118f2), (0x11950, 0x11959), (0x11c50, 0x11c6c),
  (0x11d50, 0x11d59), (0x11da0, 0x11da9), (0x11f50, 0x11f59), (0x11fc0, 0x11fd4),
  (0x12400, 0x1246e), (0x16a60, 0x16a69), (0x16ac0, 0x16ac9), (0x16b50, 0x16b59),
  (0x16b5b, 0x16b61), (0x16e80, 0x16e96), (0x1d2c0, 0x1d2d3), (0x1d2e0, 0x1d2f3),
  (0x1d360, 0x1d378), (0x1d7ce, 0x1d7ff), (0x1e140, 0x1e149), (0x1e2f0, 0x1e2f9),
  (0x1e4f0, 0x1e4f9), (0x1e8c7, 0x1e8cf), (0x1e950, 0x1e959), (0x1ec71, 0x1ecab),
  (0x1ecad, 0x1ecaf), (0x1ecb1, 0x1ecb4), (0x1ed01, 0x1ed2d), (0x1ed2f, 0x1ed3d),
  (0x1f100, 0x1f10c), (0x1fbf0, 0x1fbf9)]

/-- Go: `unicode.is16` / `unicode.is32`: membership of a code point in a range list. -/
def isInRanges (ranges : List (Nat × Nat)) (r : Nat) : Bool :=
  ranges.any fun rg => rg.1 ≤ r && r ≤ rg.2

/-- Go: `unicode.isExcludingLatin(Number, r)`. -/
def isExcludingLatin (r : Nat) : Bool :=
  if r ≤ 0xFFFF then isInRanges N_R16 r else isInRanges N_R32 r

/-- Go: `unicode.IsNumber`.
```go
if uint32(r) <= MaxLatin1 { return properties[uint8(r)]&pN != 0 }
return isExcludingLatin(Number, r)
``` -/
def IsNumber (r : Char) : Bool :=
  if r.toNat ≤ MaxLatin1 then propertiesN r.toNat else isExcludingLatin r.toNat

end unicode

namespace strings

/-- Go: the local type `span` of `strings.FieldsFunc`, a slice `s[start:end]` of the input
(`end` is a Lean keyword, hence `stop`). -/
structure span where
  start : Nat
  stop : Nat
  deriving DecidableEq, Repr

/-- Go: the first loop of `strings.FieldsFunc`, over the runes not yet visited; `end_` is the
index of the next rune, `start` the loop variable of that name (negative: no field is open).
```go
for end, rune := range s {
    if f(rune) {
        if start >= 0 {
            spans = append(spans, span{start, end})
            start = ^start
        }
    } else {
        if start < 0 {
            start = end
        }
    }
}
``` -/
def fieldsLoop (f : Char → Bool) : List Char → Nat → Int → List span → Int × List span
  | [], _, start, spans => (start, spans)
  | rune :: rest, end_, start, spans =>
    if f rune then
      if start ≥ 0 then
        fieldsLoop f rest (end_ + 1) (-start - 1) (spans ++ [⟨start.toNat, end_⟩])
      else
        fieldsLoop f rest (end_ + 1) start spans
    else
      if start < 0 then
        fieldsLoop f rest (end_ + 1) (end_ : Int) spans
      else
        fieldsLoop f rest (end_ + 1) start spans

/-- Go: the step after the loop, "Last field might end at EOF".
```go
if start >= 0 { spans = append(spans, span{start, len(s)}) }
``` -/
def lastField (st : Int × List span) (len : Nat) : List span :=
  if st.1 ≥ 0 then st.2 ++ [⟨st.1.toNat, len⟩] else st.2

/-- Go: the slice expression `s[start:end]`, on the runes of `s`. -/
def slice (runes : List Char) (sp : span) : List Char :=
  (runes.take sp.stop).drop sp.start

/-- Go: `strings.FieldsFunc(s, f)`: the spans are collected with `start := -1` and no span,
then turned into substrings of `s`. -/
def FieldsFunc (s : String) (f : Char → Bool) : List String :=
  let spans := lastField (fieldsLoop f s.data 0 (-1) []) s.data.length
  spans.map fun sp => String.mk (slice s.data sp)

end strings

/-- Go: `SplitPhone` of `query.go`.
```go
parts := strings.FieldsFunc(phone, func(r rune) bool {
    switch {
    case r == '+':
        return false
    case unicode.IsNumber(r):
        return false
    default:
        return true
    }
})
return parts
``` -/
def SplitPhone (phone : String) : List String :=
  let parts := strings.FieldsFunc phone fun r =>
    if r = '+' then false
    else if unicode.IsNumber r then false
    else true
  parts

/-! ## The reading of the splitter in the words of its description -/

/-- The description's wording: split the runes of `s` at every character that is not kept
and discard the empty runs between separators. -/
def splitOnSeparators (keep : Char → Bool) (s : String) : List String :=
  ((s.data.splitOnP fun c => !keep c).filter fun t => !t.isEmpty).map String.mk

/-- A decimal digit `'0'..'9'` or the `+` sign. -/
def isDecimalDigitOrPlus (c : Char) : Bool :=
  ('0' ≤ c && c ≤ '9') || c == '+'

/-- The `+` sign or a rune that `unicode.IsNumber` accepts. -/
def isNumericOrPlus (c : Char) : Bool :=
  c == '+' || unicode.IsNumber c

/-! ## `Record` and `ParsePhone` -/

/-- Go: `type PhoneNumberType int` of package `phonenumbers` (declared outside `query.go`);
its zero value is `0`. -/
abbrev PhoneNumberType := Int

/-- Go: `type PhoneNumberFormat int` of package `phonenumbers` (declared outside
`query.go`), with its constants. -/
inductive PhoneNumberFormat where
  | E164
  | INTERNATIONAL
  | NATIONAL
  | RFC3966
  deriving DecidableEq, Repr

/-- Go: `type Record struct` of `query.go`, fields in the order of the source. -/
structure Record where
  International : String
  NType : PhoneNumberType
  Geocode : String
  Timezone : String
  Region : String
  Language : String
  CountryCode : String
  NDC : String
  LDC : String
  Local : String
  Carrier : String
  E164 : String
  Valid : Bool
  deriving DecidableEq, Repr

/-- Go: the zero value of `Record`, what `var rec Record` declares. -/
def Record.zero : Record :=
  { International := "", NType := 0, Geocode := "", Timezone := "", Region := "",
    Language := "", CountryCode := "", NDC := "", LDC := "", Local := "", Carrier := "",
    E164 := "", Valid := false }

/-- The functions of package `phonenumbers` that `ParsePhone` calls and whose code is not in
`query.go`, taken as parameters.  `PhoneNumber` stands for Go's `*PhoneNumber`, `Error` for
the values of Go's `error` other than `nil`; a Go result `(v, err)` is a pair whose second
component is `none` when `err == nil`. -/
structure Library (PhoneNumber Error : Type) where
  Parse : String → String → PhoneNumber × Option Error
  IsValidNumber : PhoneNumber → Bool
  Format : PhoneNumber → PhoneNumberFormat → String
  GetNumberType : PhoneNumber → PhoneNumberType
  GetGeocodingForNumber : PhoneNumber → String → String × Option Error
  GetTimezonesForNumber : PhoneNumber → List String × Option Error
  GetRegionCodeForNumber : PhoneNumber → String
  GetCarrierForNumber : PhoneNumber → String → String × Option Error

/-- Go: the run-time panic of an index expression `xs[i]` with `i` out of range
("index out of range [i] with length n"). -/
inductive Panic where
  | indexOutOfRange (index length : Nat)
  deriving DecidableEq, Repr

/-- Go: the index expression `xs[i]` on a slice; it panics when `i` is not below `len(xs)`. -/
def index (xs : List String) (i : Nat) : Except Panic String :=
  match xs[i]? with
  | some x => .ok x
  | none => .error (.indexOutOfRange i xs.length)

/-- Go: `ParsePhone` of `query.go`, statement by statement; the result is the returned pair
`(Record, error)`, or the panic that ends the call. -/
def ParsePhone {PhoneNumber Error : Type} (lib : Library PhoneNumber Error)
    (number region lang : String) : Except Panic (Record × Option Error) :=
  let rec_ : Record := Record.zero
  let region := if region = "" then "US" else region
  let lang := if lang = "" then "en" else lang
  match lib.Parse number region with
  | (_, some err) => .ok (rec_, some err)
  | (n, none) => do
    let rec_ := { rec_ with Valid := lib.IsValidNumber n }
    let rec_ := { rec_ with International := lib.Format n .INTERNATIONAL }
    let rec_ := { rec_ with NType := lib.GetNumberType n }
    let rec_ :=
      match lib.GetGeocodingForNumber n lang with
      | (gc, none) => { rec_ with Geocode := gc }
      | (_, some _) => rec_
    let rec_ ←
      match lib.GetTimezonesForNumber n with
      | (tz, none) => do
        let tz0 ← index tz 0
        pure { rec_ with Timezone := tz0 }
      | (_, some _) => pure rec_
    let rec_ := { rec_ with Region := lib.GetRegionCodeForNumber n }
    let rec_ := { rec_ with E164 := lib.Format n .E164 }
    let parts := SplitPhone rec_.International
    let parts0 ← index parts 0
    let rec_ := { rec_ with CountryCode := parts0 }
    let parts1 ← index parts 1
    let rec_ := { rec_ with NDC := parts1 }
    let rec_ ←
      match parts.length with
      | 3 => do
        let parts2 ← index parts 2
        pure { rec_ with Local := parts2 }
      | 4 => do
        let parts2 ← index parts 2
        let rec_ := { rec_ with LDC := parts2 }
        let parts3 ← index parts 3
        pure { rec_ with Local := parts3 }
      | _ => pure rec_
    let rec_ :=
      match lib.GetCarrierForNumber n lang with
      | (cr, none) => { rec_ with Carrier := cr }
      | (_, some _) => rec_
    pure (rec_, none)

/-! ## A library instance with fixed answers -/

/-- A library whose answers are fixed: `Parse` rejects the string `"not a number"` and
accepts every other string, every parsed number is formatted as `international` and `e164`
and the three fallible lookups answer `geo`, `tz` and `carrier`. -/
def fixedLibrary (international e164 : String) (geo : String × Option String)
    (tz : List String × Option String) (carrier : String × Option String) :
    Library Unit String where
  Parse number _ :=
    if number = "not a number" then ((), some "the phone number supplied is not a number")
    else ((), none)
  IsValidNumber _ := true
  Format _ fmt :=
    match fmt with
    | .INTERNATIONAL => international
    | _ => e164
  GetNumberType _ := 2
  GetGeocodingForNumber _ _ := geo
  GetTimezonesForNumber _ := tz
  GetRegionCodeForNumber _ := "US"
  GetCarrierForNumber _ _ := carrier

/-- The answers of the library for the number `2125551212` of region `US`. -/
def usLibrary : Library Unit String :=
  fixedLibrary "+1 212-555-1212" "+12125551212" ("New York, NY", none)
    (["America/New_York"], none) ("", some "no carrier data")

/-! ## The fields `ParsePhone` computes, in closed form -/

/-- The value a soft lookup leaves in its field: the answer on success, the empty string
of the zero `Record` on error. -/
def softField {Error : Type} (x : String × Option Error) : String :=
  match x with
  | (v, none) => v
  | (_, some _) => ""

/-- The outcome of the timezone step: the field on a failed lookup or a non-empty answer,
`none` where `tz[0]` is out of range. -/
def timezoneField {Error : Type} (x : List String × Option Error) : Option String :=
  match x with
  | (tz, none) => tz[0]?
  | (_, some _) => some ""

/-- The `LDC` field for the tokens `parts`: the third token of exactly four. -/
def ldcField (parts : List String) : String :=
  match parts with
  | [_, _, c, _] => c
  | _ => ""

/-- The `Local` field for the tokens `parts`: the last token of exactly three or four. -/
def localField (parts : List String) : String :=
  match parts with
  | [_, _, c] => c
  | [_, _, _, d] => d
  | _ => ""

/-- The answers of the library for the number `07911 123456` of region `GB`. -/
def ukLibrary : Library Unit String :=
  fixedLibrary "+44 7911 123456" "+447911123456" ("United Kingdom", none)
    (["Europe/London"], none) ("", some "no carrier data")

/-- The library `usLibrary` with a geocoding lookup that reports an error. -/
def usLibraryNoGeocode : Library Unit String :=
  fixedLibrary "+1 212-555-1212" "+12125551212" ("", some "no geocoding data")
    (["America/New_York"], none) ("", some "no carrier data")

/-- The answers of the library for the number `01 23 45 67 89` of region `FR`, whose
international format has six tokens. -/
def frLibrary : Library Unit String :=
  fixedLibrary "+33 1 23 45 67 89" "+33123456789" ("France", none)
    (["Europe/Paris"], none) ("", some "no carrier data")

/-- A library whose international format of a number is a single token. -/
def oneTokenLibrary : Library Unit String :=
  fixedLibrary "+12125551212" "+12125551212" ("", none) (["America/New_York"], none)
    ("", none)

/-- A library whose international format of a number has no token. -/
def noTokenLibrary : Library Unit String :=
  fixedLibrary "" "" ("", none) (["America/New_York"], none) ("", none)

/-- Go: `strings.Join(elems, sep)`, the elements of `elems` concatenated with `sep` placed
between them. -/
def strings.Join : List String → String → String
  | [], _ => ""
  | [a], _ => a
  | a :: b :: rest, sep => a ++ sep ++ strings.Join (b :: rest) sep

/-- The library `usLibrary` with a timezone lookup that answers an empty list without
error. -/
def usLibraryNoTimezone : Library Unit String :=
  fixedLibrary "+1 212-555-1212" "+12125551212" ("New York, NY", none) ([], none)
    ("", some "no carrier data")

/-- The library `usLibrary` with a timezone lookup that reports an error. -/
def usLibraryTimezoneError : Library Unit String :=
  fixedLibrary "+1 212-555-1212" "+12125551212" ("New York, NY", none)
    ([], some "no timezone data") ("", some "no carrier data")

/-! ## Lemmas on `strings.FieldsFunc` -/

namespace strings

theorem slice_of_append (pre rest : List Char) (a : Nat) :
    slice (pre ++ rest) ⟨a, pre.length⟩ = pre.drop a := by
  simp [slice]

theorem slice_whole (whole : List Char) (a : Nat) :
    slice whole ⟨a, whole.length⟩ = whole.drop a := by
  simp [slice]

/-- Invariant of the loop of `FieldsFunc`: with `pre` the runes already visited and `rest`
those to come, the substrings of the spans the function ends with are those of the spans
collected so far, followed by the non-empty pieces of `rest` split at `f`, the first piece
extended to the left by the open field `pre[start:]`. -/
theorem fieldsLoop_spec (f : Char → Bool) (whole : List Char) :
    ∀ (rest pre : List Char) (start : Int) (spans : List span),
      pre ++ rest = whole → (0 ≤ start → start.toNat < pre.length) →
      (lastField (fieldsLoop f rest pre.length start spans) whole.length).map (slice whole) =
        spans.map (slice whole) ++
          (List.splitOnP.go f rest
            (if start < 0 then [] else (pre.drop start.toNat).reverse)).filter
              (fun t => !t.isEmpty) := by
  intro rest
  induction rest with
  | nil =>
    intro pre start spans hw hs
    simp only [List.append_nil] at hw
    subst hw
    by_cases h0 : 0 ≤ start
    · have hlt := hs h0
      have hne : List.drop start.toNat pre ≠ [] := by
        simp only [ne_eq, List.drop_eq_nil_iff, not_le]; exact hlt
      have hnot : ¬ start < 0 := not_lt.mpr h0
      simp [fieldsLoop, lastField, List.splitOnP.go, h0, hnot, slice_whole, hne]
    · have hneg : start < 0 := not_le.mp h0
      simp [fieldsLoop, lastField, List.splitOnP.go, h0, hneg]
  | cons rune rest ih =>
    intro pre start spans hw hs
    have hw' : (pre ++ [rune]) ++ rest = whole := by simpa using hw
    have hlen : (pre ++ [rune]).length = pre.length + 1 := by simp
    by_cases hf : f rune = true
    · by_cases h0 : 0 ≤ start
      · have hlt := hs h0
        have hne : List.drop start.toNat pre ≠ [] := by
          simp only [ne_eq, List.drop_eq_nil_iff, not_le]; exact hlt
        have hnot : ¬ start < 0 := not_lt.mpr h0
        have hneg : -start - 1 < 0 := by omega
        have key := ih (pre ++ [rune]) (-start - 1) (spans ++ [⟨start.toNat, pre.length⟩]) hw'
          (fun h => absurd h (by omega))
        rw [hlen] at key
        have hsl : slice whole ⟨start.toNat, pre.length⟩ = pre.drop start.toNat := by
          rw [← hw]; exact slice_of_append pre (rune :: rest) start.toNat
        simp only [fieldsLoop, hf, if_true, ge_iff_le, h0]
        rw [key]
        simp [List.splitOnP.go, hf, hnot, hneg, hsl, hne]
      · have hneg : start < 0 := not_le.mp h0
        have key := ih (pre ++ [rune]) start spans hw' (fun h => absurd h h0)
        rw [hlen] at key
        simp only [fieldsLoop, hf, if_true, ge_iff_le, h0, if_false]
        rw [key]
        simp [List.splitOnP.go, hf, hneg]
    · have hf' : f rune = false := by simpa using hf
      by_cases h0 : 0 ≤ start
      · have hlt := hs h0
        have hnot : ¬ start < 0 := not_lt.mpr h0
        have key := ih (pre ++ [rune]) start spans hw' (fun _ => by rw [hlen]; omega)
        rw [hlen] at key
        have hdrop : List.drop start.toNat (pre ++ [rune]) = List.drop start.toNat pre ++ [rune] := by
          rw [List.drop_append_of_le_length (le_of_lt hlt)]
        simp only [fieldsLoop, hf', Bool.false_eq_true, if_false, hnot]
        rw [key]
        simp [List.splitOnP.go, hf', hnot, hdrop]
      · have hneg : start < 0 := not_le.mp h0
        have key := ih (pre ++ [rune]) (pre.length : Int) spans hw'
          (fun _ => by rw [hlen]; simp)
        rw [hlen] at key
        simp only [fieldsLoop, hf', Bool.false_eq_true, if_false, hneg, if_true]
        rw [key]
        have hpos : ¬ ((pre.length : Int) < 0) := by omega
        simp [List.splitOnP.go, hf', hneg, hpos]

/-- The fields of `FieldsFunc` are the non-empty pieces of the input split at `f`. -/
theorem FieldsFunc_eq_splitOnP (s : String) (f : Char → Bool) :
    FieldsFunc s f = ((s.data.splitOnP f).filter fun t => !t.isEmpty).map String.mk := by
  have key := fieldsLoop_spec f s.data s.data [] (-1) [] (by simp) (fun h => absurd h (by omega))
  simp only [List.length_nil, List.map_nil, List.nil_append] at key
  have hneg : ((-1 : Int) < 0) := by omega
  simp only [hneg, if_true] at key
  unfold FieldsFunc
  simp only [List.splitOnP]
  rw [← key, List.map_map]
  rfl

end strings

/-! ## Evaluation of `ParsePhone` -/

theorem ParsePhone_parse_error {PN E : Type} (lib : Library PN E) (number region lang : String)
    (n : PN) (e : E)
    (hparse : lib.Parse number (if region = "" then "US" else region) = (n, some e)) :
    ParsePhone lib number region lang = .ok (Record.zero, some e) := by
  simp only [ParsePhone, hparse]

theorem ParsePhone_success {PN E : Type} (lib : Library PN E) (number region lang : String)
    (n : PN) (t a b : String) (rest : List String)
    (hparse : lib.Parse number (if region = "" then "US" else region) = (n, none))
    (htz : timezoneField (lib.GetTimezonesForNumber n) = some t)
    (hparts : SplitPhone (lib.Format n .INTERNATIONAL) = a :: b :: rest) :
    ParsePhone lib number region lang = .ok
      ({ International := lib.Format n .INTERNATIONAL
         NType := lib.GetNumberType n
         Geocode := softField (lib.GetGeocodingForNumber n (if lang = "" then "en" else lang))
         Timezone := t
         Region := lib.GetRegionCodeForNumber n
         Language := ""
         CountryCode := a
         NDC := b
         LDC := ldcField (a :: b :: rest)
         Local := localField (a :: b :: rest)
         Carrier := softField (lib.GetCarrierForNumber n (if lang = "" then "en" else lang))
         E164 := lib.Format n .E164
         Valid := lib.IsValidNumber n }, none) := by
  simp only [ParsePhone, hparse]
  rcases hg : lib.GetGeocodingForNumber n (if lang = "" then "en" else lang) with ⟨gc, _ | ge⟩ <;>
  rcases hc : lib.GetCarrierForNumber n (if lang = "" then "en" else lang) with ⟨cr, _ | ce⟩ <;>
  rcases hz : lib.GetTimezonesForNumber n with ⟨tz, _ | ze⟩ <;>
  rw [hz] at htz <;>
  simp only [timezoneField] at htz <;>
  (try (rcases tz with _ | ⟨t0, tz'⟩ <;> simp at htz)) <;>
  subst htz <;>
  rcases rest with _ | ⟨c, _ | ⟨d, _ | ⟨e, rest'⟩⟩⟩ <;>
  simp [index, hparts, softField, ldcField, localField, Record.zero, bind, Except.bind, pure,
    Except.pure]

theorem ParsePhone_timezone_panic {PN E : Type} (lib : Library PN E)
    (number region lang : String) (n : PN)
    (hparse : lib.Parse number (if region = "" then "US" else region) = (n, none))
    (htz : timezoneField (lib.GetTimezonesForNumber n) = none) :
    ParsePhone lib number region lang = .error (.indexOutOfRange 0 0) := by
  simp only [ParsePhone, hparse]
  rcases hz : lib.GetTimezonesForNumber n with ⟨tz, _ | ze⟩ <;>
  rw [hz] at htz <;>
  simp only [timezoneField] at htz
  · rcases tz with _ | ⟨t0, tz'⟩
    · simp [index, bind, Except.bind]
    · simp at htz
  · simp at htz

theorem ParsePhone_parts_panic {PN E : Type} (lib : Library PN E)
    (number region lang : String) (n : PN) (t : String)
    (hparse : lib.Parse number (if region = "" then "US" else region) = (n, none))
    (htz : timezoneField (lib.GetTimezonesForNumber n) = some t)
    (hparts : (SplitPhone (lib.Format n .INTERNATIONAL)).length < 2) :
    ParsePhone lib number region lang =
      .error (.indexOutOfRange (SplitPhone (lib.Format n .INTERNATIONAL)).length
        (SplitPhone (lib.Format n .INTERNATIONAL)).length) := by
  simp only [ParsePhone, hparse]
  rcases hp : SplitPhone (lib.Format n .INTERNATIONAL) with _ | ⟨a, _ | ⟨b, rest⟩⟩ <;>
  rw [hp] at hparts <;>
  rcases hg : lib.GetGeocodingForNumber n (if lang = "" then "en" else lang) with ⟨gc, _ | ge⟩ <;>
  rcases hz : lib.GetTimezonesForNumber n with ⟨tz, _ | ze⟩ <;>
  rw [hz] at htz <;>
  simp only [timezoneField] at htz <;>
  (try (rcases tz with _ | ⟨t0, tz'⟩ <;> simp at htz)) <;>
  first
    | (exfalso; simp only [List.length_cons] at hparts; omega)
    | simp [index, bind, Except.bind, pure, Except.pure, hp, Record.zero]

/-- What a returned pair says about a call whose `Parse` succeeded: the timezone step did
not go out of range, there were two tokens at least, the error is `nil` and the `Record` is
the one of `ParsePhone_success`. -/
theorem ParsePhone_ok_inv {PN E : Type} (lib : Library PN E) (number region lang : String)
    (n : PN) (rec_ : Record) (err : Option E)
    (hparse : lib.Parse number (if region = "" then "US" else region) = (n, none))
    (hret : ParsePhone lib number region lang = .ok (rec_, err)) :
    ∃ t a b rest,
      timezoneField (lib.GetTimezonesForNumber n) = some t ∧
      SplitPhone (lib.Format n .INTERNATIONAL) = a :: b :: rest ∧
      err = none ∧
      rec_ =
        { International := lib.Format n .INTERNATIONAL
          NType := lib.GetNumberType n
          Geocode := softField (lib.GetGeocodingForNumber n (if lang = "" then "en" else lang))
          Timezone := t
          Region := lib.GetRegionCodeForNumber n
          Language := ""
          CountryCode := a
          NDC := b
          LDC := ldcField (a :: b :: rest)
          Local := localField (a :: b :: rest)
          Carrier := softField (lib.GetCarrierForNumber n (if lang = "" then "en" else lang))
          E164 := lib.Format n .E164
          Valid := lib.IsValidNumber n } := by
  rcases htz : timezoneField (lib.GetTimezonesForNumber n) with _ | t
  · rw [ParsePhone_timezone_panic lib number region lang n hparse htz] at hret
    cases hret
  · rcases hp : SplitPhone (lib.Format n .INTERNATIONAL) with _ | ⟨a, _ | ⟨b, rest⟩⟩
    · rw [ParsePhone_parts_panic lib number region lang n t hparse htz (by simp [hp])] at hret
      cases hret
    · rw [ParsePhone_parts_panic lib number region lang n t hparse htz (by simp [hp])] at hret
      cases hret
    · rw [ParsePhone_success lib number region lang n t a b rest hparse htz hp] at hret
      injection hret with hret
      injection hret with h1 h2
      exact ⟨t, a, b, rest, rfl, rfl, h2.symm, h1.symm⟩

/-! ## Facts on `SplitPhone` -/

theorem SplitPhone_separator_eq :
    (fun r : Char => if r = '+' then false else if unicode.IsNumber r then false else true) =
      fun c => !isNumericOrPlus c := by
  funext r
  by_cases h1 : r = '+' <;> by_cases h2 : unicode.IsNumber r = true <;>
    simp [isNumericOrPlus, h1, h2]

theorem SplitPhone_eq_splitOnSeparators (s : String) :
    SplitPhone s = splitOnSeparators isNumericOrPlus s := by
  unfold SplitPhone splitOnSeparators
  simp only [strings.FieldsFunc_eq_splitOnP, SplitPhone_separator_eq]

theorem SplitPhone_token_ne_empty (s t : String) (h : t ∈ SplitPhone s) : t ≠ "" := by
  rw [SplitPhone_eq_splitOnSeparators] at h
  unfold splitOnSeparators at h
  rcases List.mem_map.mp h with ⟨cs, hcs, rfl⟩
  have hne := (List.mem_filter.mp hcs).2
  intro hcontra
  have : cs = [] := by
    have := congrArg String.data hcontra
    simpa using this
  simp [this] at hne

theorem timezoneField_isSome {E : Type} (x : List String × Option E) (h : x ≠ ([], none)) :
    ∃ t, timezoneField x = some t := by
  rcases x with ⟨tz, _ | e⟩
  · rcases tz with _ | ⟨t0, tz'⟩
    · exact absurd rfl h
    · exact ⟨t0, by simp [timezoneField]⟩
  · exact ⟨"", by simp [timezoneField]⟩

theorem timezoneField_error {E : Type} (tz : List String) (e : E) :
    timezoneField (tz, some e) = some "" := rfl

theorem timezoneField_ok {E : Type} (tz : List String) (t : String)
    (h : timezoneField (tz, (none : Option E)) = some t) : tz.head? = some t := by
  rcases tz with _ | ⟨t0, tz'⟩ <;> simp [timezoneField] at h ⊢
  exact h

/-- A call whose `Parse` succeeds returns when the timezone lookup does not answer an empty
list without error and the international format has two tokens at least. -/
theorem ParsePhone_returns {PN E : Type} (lib : Library PN E) (number region lang : String)
    (n : PN)
    (hparse : lib.Parse number (if region = "" then "US" else region) = (n, none))
    (htz : lib.GetTimezonesForNumber n ≠ ([], none))
    (hlen : 2 ≤ (SplitPhone (lib.Format n .INTERNATIONAL)).length) :
    ∃ rec_, ParsePhone lib number region lang = .ok (rec_, none) := by
  obtain ⟨t, ht⟩ := timezoneField_isSome _ htz
  rcases hp : SplitPhone (lib.Format n .INTERNATIONAL) with _ | ⟨a, _ | ⟨b, rest⟩⟩
  · simp [hp] at hlen
  · simp [hp] at hlen
  · exact ⟨_, ParsePhone_success lib number region lang n t a b rest hparse ht hp⟩

theorem splitOnP_go_congr {α : Type} (p q : α → Bool) :
    ∀ (l acc : List α), (∀ x ∈ l, p x = q x) →
      List.splitOnP.go p l acc = List.splitOnP.go q l acc := by
  intro l
  induction l with
  | nil => intro acc _; rfl
  | cons x xs ih =>
    intro acc h
    have hx : p x = q x := h x (List.mem_cons_self x xs)
    have hxs : ∀ y ∈ xs, p y = q y := fun y hy => h y (List.mem_cons_of_mem x hy)
    simp only [List.splitOnP.go, hx, ih _ hxs]

theorem IsNumber_of_decimal (c : Char) (h : '0' ≤ c ∧ c ≤ '9') : unicode.IsNumber c = true := by
  have h1 : 48 ≤ c.toNat := h.1
  have h2 : c.toNat ≤ 57 := h.2
  have h3 : c.toNat ≤ unicode.MaxLatin1 := by unfold unicode.MaxLatin1; omega
  simp [unicode.IsNumber, h3, unicode.propertiesN, h1, h2]

theorem isNumericOrPlus_eq_decimal (c : Char)
    (h : unicode.IsNumber c = true → ('0' ≤ c ∧ c ≤ '9')) :
    isNumericOrPlus c = isDecimalDigitOrPlus c := by
  by_cases hn : unicode.IsNumber c = true
  · have hd := h hn
    simp [isNumericOrPlus, isDecimalDigitOrPlus, hn, hd.1, hd.2]
  · have hd : ¬ ('0' ≤ c ∧ c ≤ '9') := fun hd => hn (IsNumber_of_decimal c hd)
    have hn' : unicode.IsNumber c = false := by simpa using hn
    have hd' : (decide ('0' ≤ c) && decide (c ≤ '9')) = false := by
      simpa using hd
    simp only [isNumericOrPlus, isDecimalDigitOrPlus, hn', hd', Bool.or_false, Bool.false_or]

/-! ## The pieces of a split -/

theorem splitOnP_go_kept {α : Type} (f : α → Bool) :
    ∀ (l acc : List α), (∀ c ∈ acc, f c = false) →
      ∀ t ∈ List.splitOnP.go f l acc, ∀ c ∈ t, f c = false := by
  intro l
  induction l with
  | nil =>
    intro acc hacc t ht c hc
    simp only [List.splitOnP.go, List.mem_singleton] at ht
    subst ht
    exact hacc c (List.mem_reverse.mp hc)
  | cons a l ih =>
    intro acc hacc t ht c hc
    by_cases hf : f a = true
    · simp only [List.splitOnP.go, hf, if_true, List.mem_cons] at ht
      rcases ht with ht | ht
      · subst ht
        exact hacc c (List.mem_reverse.mp hc)
      · exact ih [] (by simp) t ht c hc
    · have hf' : f a = false := by simpa using hf
      simp only [List.splitOnP.go, hf', Bool.false_eq_true, if_false] at ht
      refine ih (a :: acc) ?_ t ht c hc
      intro x hx
      rcases List.mem_cons.mp hx with hx | hx
      · subst hx; exact hf'
      · exact hacc x hx

theorem splitOnP_go_flatten {α : Type} (f : α → Bool) :
    ∀ (l acc : List α),
      (List.splitOnP.go f l acc).flatten = acc.reverse ++ l.filter (fun c => !f c) := by
  intro l
  induction l with
  | nil => intro acc; simp [List.splitOnP.go]
  | cons a l ih =>
    intro acc
    by_cases hf : f a = true
    · simp [List.splitOnP.go, hf, ih]
    · have hf' : f a = false := by simpa using hf
      simp [List.splitOnP.go, hf', ih]

theorem flatten_filter_nonempty {α : Type} (L : List (List α)) :
    (L.filter fun t => !t.isEmpty).flatten = L.flatten := by
  induction L with
  | nil => rfl
  | cons t L ih =>
    rcases t with _ | ⟨x, t⟩
    · simpa using ih
    · simp [ih]

theorem splitOnP_go_segment {α : Type} (f : α → Bool) :
    ∀ (l acc : List α), ∀ t ∈ List.splitOnP.go f l acc, t <:+: acc.reverse ++ l := by
  intro l
  induction l with
  | nil =>
    intro acc t ht
    simp only [List.splitOnP.go, List.mem_singleton] at ht
    subst ht
    simp
  | cons a l ih =>
    intro acc t ht
    by_cases hf : f a = true
    · simp only [List.splitOnP.go, hf, if_true, List.mem_cons] at ht
      rcases ht with ht | ht
      · subst ht
        exact List.infix_append' [] acc.reverse (a :: l)
      · have h := ih [] t ht
        simp only [List.reverse_nil, List.nil_append] at h
        obtain ⟨p, q, hpq⟩ := h
        exact ⟨acc.reverse ++ a :: p, q, by simp [← hpq]⟩
    · have hf' : f a = false := by simpa using hf
      simp only [List.splitOnP.go, hf', Bool.false_eq_true, if_false] at ht
      have h := ih (a :: acc) t ht
      simpa using h

theorem splitOnP_go_append_kept {α : Type} (f : α → Bool) :
    ∀ (t acc rest : List α), (∀ c ∈ t, f c = false) →
      List.splitOnP.go f (t ++ rest) acc = List.splitOnP.go f rest (t.reverse ++ acc) := by
  intro t
  induction t with
  | nil => intro acc rest _; rfl
  | cons x t ih =>
    intro acc rest h
    have hx : f x = false := h x (List.mem_cons_self x t)
    have ht : ∀ c ∈ t, f c = false := fun c hc => h c (List.mem_cons_of_mem x hc)
    simp [List.splitOnP.go, hx, ih (x :: acc) rest ht]

theorem SplitPhone_data (s : String) :
    (SplitPhone s).map String.data =
      (List.splitOnP.go (fun c => !isNumericOrPlus c) s.data []).filter
        (fun t => !t.isEmpty) := by
  rw [SplitPhone_eq_splitOnSeparators]
  unfold splitOnSeparators List.splitOnP
  rw [List.map_map]
  exact List.map_id _

theorem SplitPhone_mem_data (s t : String) (h : t ∈ SplitPhone s) :
    t.data ∈ List.splitOnP.go (fun c => !isNumericOrPlus c) s.data [] := by
  have h1 : t.data ∈ (SplitPhone s).map String.data := List.mem_map_of_mem String.data h
  rw [SplitPhone_data] at h1
  exact (List.mem_filter.mp h1).1

theorem SplitPhone_token_kept (s t : String) (h : t ∈ SplitPhone s) :
    ∀ c ∈ t.data, isNumericOrPlus c = true := by
  intro c hc
  have := splitOnP_go_kept (fun c => !isNumericOrPlus c) s.data [] (by simp) t.data
    (SplitPhone_mem_data s t h) c hc
  simpa using this

theorem SplitPhone_token_segment (s t : String) (h : t ∈ SplitPhone s) :
    t.data <:+: s.data := by
  have := splitOnP_go_segment (fun c => !isNumericOrPlus c) s.data [] t.data
    (SplitPhone_mem_data s t h)
  simpa using this

theorem SplitPhone_flatten (s : String) :
    ((SplitPhone s).map String.data).flatten = s.data.filter isNumericOrPlus := by
  rw [SplitPhone_data, flatten_filter_nonempty, splitOnP_go_flatten]
  simp

theorem SplitPhone_eq_nil_iff (s : String) :
    SplitPhone s = [] ↔ ∀ c ∈ s.data, isNumericOrPlus c = false := by
  constructor
  · intro h c hc
    have hfl := SplitPhone_flatten s
    rw [h] at hfl
    simp only [List.map_nil, List.flatten_nil] at hfl
    by_contra hk
    have hk' : isNumericOrPlus c = true := by simpa using hk
    have : c ∈ s.data.filter isNumericOrPlus := List.mem_filter.mpr ⟨hc, hk'⟩
    rw [← hfl] at this
    simp at this
  · intro h
    rcases hs : SplitPhone s with _ | ⟨t, ts⟩
    · rfl
    · exfalso
      have ht : t ∈ SplitPhone s := by rw [hs]; simp
      have hne : t ≠ "" := SplitPhone_token_ne_empty s t ht
      rcases hd : t.data with _ | ⟨c, cs⟩
      · exact hne (by
          have : t = String.mk t.data := rfl
          rw [this, hd])
      · have hkept := SplitPhone_token_kept s t ht c (by rw [hd]; simp)
        have hin : c ∈ s.data :=
          (SplitPhone_token_segment s t ht).subset (by rw [hd]; simp)
        rw [h c hin] at hkept
        exact absurd hkept (by simp)

/-- Splitting the join of non-empty separator-free pieces at a separator gives back the
pieces. -/
theorem splitOnP_go_Join (f : Char → Bool) (sep : Char) (hsep : f sep = true) :
    ∀ ss : List String, (∀ t ∈ ss, t.data ≠ [] ∧ ∀ c ∈ t.data, f c = false) →
      (List.splitOnP.go f (strings.Join ss (String.singleton sep)).data []).filter
        (fun t => !t.isEmpty) = ss.map String.data := by
  intro ss
  induction ss with
  | nil => intro _; simp [strings.Join, List.splitOnP.go]
  | cons a ss ih =>
    intro h
    have ha := h a (List.mem_cons_self a ss)
    have hss : ∀ t ∈ ss, t.data ≠ [] ∧ ∀ c ∈ t.data, f c = false :=
      fun t ht => h t (List.mem_cons_of_mem a ht)
    rcases ss with _ | ⟨b, rest⟩
    · have := splitOnP_go_append_kept f a.data [] [] ha.2
      simp only [List.append_nil] at this
      simp [strings.Join, this, List.splitOnP.go, ha.1]
    · have hdata : (strings.Join (a :: b :: rest) (String.singleton sep)).data =
          a.data ++ sep :: (strings.Join (b :: rest) (String.singleton sep)).data := by
        simp [strings.Join, String.singleton]
      rw [hdata, splitOnP_go_append_kept f a.data [] _ ha.2]
      simp only [List.append_nil, List.splitOnP.go, hsep, if_true, List.reverse_reverse]
      rw [List.filter_cons_of_pos (by simpa using ha.1), ih hss]
      rfl

theorem SplitPhone_Join (s : String) (sep : Char) (hsep : isNumericOrPlus sep = false) :
    SplitPhone (strings.Join (SplitPhone s) (String.singleton sep)) = SplitPhone s := by
  have h := splitOnP_go_Join (fun c => !isNumericOrPlus c) sep (by simp [hsep]) (SplitPhone s)
    (fun t ht => ⟨fun hd => SplitPhone_token_ne_empty s t ht (by
        have : t = String.mk t.data := rfl
        rw [this, hd]),
      fun c hc => by simp [SplitPhone_token_kept s t ht c hc]⟩)
  have h2 := SplitPhone_data (strings.Join (SplitPhone s) (String.singleton sep))
  rw [h] at h2
  exact List.map_injective_iff.mpr (fun a b hab => String.ext hab) h2

theorem plus_mem_tail_of_eq (l pre post : List Char) (x : Char)
    (h : l = pre ++ x :: '+' :: post) : '+' ∈ l.tail := by
  subst h
  rcases pre with _ | ⟨p, pre⟩ <;> simp

theorem SplitPhone_plus_leading (s : String)
    (hplus : ∀ pre x post, s.data = pre ++ x :: '+' :: post → isNumericOrPlus x = false) :
    ∀ t ∈ SplitPhone s, ∀ c ∈ t.data.tail, c ≠ '+' := by
  intro t ht c hc hcp
  subst hcp
  obtain ⟨p, q, hpq⟩ := SplitPhone_token_segment s t ht
  rcases hd : t.data with _ | ⟨x, tl⟩
  · rw [hd] at hc; simp at hc
  · rw [hd] at hc hpq
    simp only [List.tail_cons] at hc
    obtain ⟨u, v, huv⟩ := List.append_of_mem hc
    have hne : x :: u ≠ [] := by simp
    have hlast := List.dropLast_append_getLast hne
    have hy : (x :: u).getLast hne ∈ t.data := by
      rw [hd, huv]
      have := List.getLast_mem hne
      rcases List.mem_cons.mp this with h | h
      · rw [h]; simp
      · exact List.mem_cons_of_mem x (List.mem_append_left _ h)
    have hkept := SplitPhone_token_kept s t ht _ hy
    have hsplit : s.data =
        (p ++ (x :: u).dropLast) ++ (x :: u).getLast hne :: '+' :: (v ++ q) := by
      rw [← hpq, huv]
      have h2 : x :: (u ++ '+' :: v) = ((x :: u).dropLast ++ [(x :: u).getLast hne]) ++ '+' :: v := by
        rw [hlast]; simp
      rw [h2]
      simp
    rw [hplus _ _ _ hsplit] at hkept
    exact absurd hkept (by simp)

/-! ## The properties -/

/-- C1 (as amended): for every string `s`, `SplitPhone s` is the ordered list of the maximal
non-empty runs of characters of `s` that are `+` or numeric in the sense of
`unicode.IsNumber`: it is `s` split at every other character with the empty runs dropped,
no token is the empty string, and on a string whose numeric characters are all among
`'0'..'9'` this is the split at every character that is neither a decimal digit nor `+`. -/
theorem SplitPhone_maximal_runs (s : String) :
    SplitPhone s = splitOnSeparators isNumericOrPlus s ∧
    (∀ t ∈ SplitPhone s, t ≠ "") ∧
    ((∀ c ∈ s.data, unicode.IsNumber c = true → ('0' ≤ c ∧ c ≤ '9')) →
      SplitPhone s = splitOnSeparators isDecimalDigitOrPlus s) := by
  refine ⟨SplitPhone_eq_splitOnSeparators s, fun t ht => SplitPhone_token_ne_empty s t ht, ?_⟩
  intro h
  rw [SplitPhone_eq_splitOnSeparators]
  unfold splitOnSeparators List.splitOnP
  rw [splitOnP_go_congr (fun c => !isNumericOrPlus c) (fun c => !isDecimalDigitOrPlus c)
    s.data [] (fun c hc => by simp only [isNumericOrPlus_eq_decimal c (h c hc)])]

/-- C1, an instance: the international format of a US number has only ASCII digits, and
its tokens are those of the split at every character that is neither a decimal digit
nor `+`. -/
theorem SplitPhone_maximal_runs_witness :
    (∀ c ∈ "+1 212-555-1212".data, unicode.IsNumber c = true → ('0' ≤ c ∧ c ≤ '9')) ∧
    SplitPhone "+1 212-555-1212" = splitOnSeparators isDecimalDigitOrPlus "+1 212-555-1212" :=
  ⟨by decide, (SplitPhone_maximal_runs "+1 212-555-1212").2.2 (by decide)⟩

/-- C1, as stated, fails: the superscript two `'²'` (U+00B2) is neither a decimal digit nor
`+`, yet `SplitPhone` does not split at it, since `unicode.IsNumber` accepts it. -/
theorem SplitPhone_decimal_counterexample :
    SplitPhone "1²2" = ["1²2"] ∧
    splitOnSeparators isDecimalDigitOrPlus "1²2" = ["1", "2"] ∧
    SplitPhone "1²2" ≠ splitOnSeparators isDecimalDigitOrPlus "1²2" := by
  decide

/-- C2: when the library's `Parse` of the number and the resolved region returns an error
`e`, `ParsePhone` returns that error unchanged together with the zero `Record`, whatever the
other functions of the library answer. -/
theorem ParsePhone_hard_failure {PN E : Type} (lib : Library PN E)
    (number region lang : String) (n : PN) (e : E)
    (hparse : lib.Parse number (if region = "" then "US" else region) = (n, some e)) :
    ParsePhone lib number region lang = .ok (Record.zero, some e) ∧
    Record.zero = ⟨"", 0, "", "", "", "", "", "", "", "", "", "", false⟩ ∧
    (∀ lib2 : Library PN E, lib2.Parse = lib.Parse →
      ParsePhone lib2 number region lang = .ok (Record.zero, some e)) := by
  refine ⟨ParsePhone_parse_error lib number region lang n e hparse, rfl, ?_⟩
  intro lib2 h2
  exact ParsePhone_parse_error lib2 number region lang n e (by rw [h2]; exact hparse)

/-- C2, an instance: the input `"not a number"` with region `"ZZ"`. -/
theorem ParsePhone_hard_failure_witness :
    usLibrary.Parse "not a number" (if "ZZ" = "" then "US" else "ZZ") =
      ((), some "the phone number supplied is not a number") ∧
    ParsePhone usLibrary "not a number" "ZZ" "en" =
      .ok (Record.zero, some "the phone number supplied is not a number") :=
  ⟨rfl, (ParsePhone_hard_failure usLibrary "not a number" "ZZ" "en" ()
    "the phone number supplied is not a number" rfl).1⟩

/-- C3: an empty region behaves as `"US"` and an empty language as `"en"`, each on its own
and both together: the outcome (the returned pair, or the panic) is the same. -/
theorem ParsePhone_defaulting {PN E : Type} (lib : Library PN E)
    (number region lang : String) :
    ParsePhone lib number "" "" = ParsePhone lib number "US" "en" ∧
    ParsePhone lib number "" lang = ParsePhone lib number "US" lang ∧
    ParsePhone lib number region "" = ParsePhone lib number region "en" := by
  refine ⟨?_, ?_, ?_⟩ <;> simp [ParsePhone]

/-- C4: when `Parse` succeeds, a `Record` that `ParsePhone` returns has `CountryCode`,
`NDC`, `LDC`, `Local` equal to the four tokens of `SplitPhone` of the international format
when there are exactly four, and `CountryCode`, `NDC`, `Local` equal to the three tokens
with `LDC` empty when there are exactly three; with three or four tokens a `Record` is
returned, with a `nil` error, unless the timezone lookup answers an empty list without
error. -/
theorem ParsePhone_segments {PN E : Type} (lib : Library PN E)
    (number region lang : String) (n : PN)
    (hparse : lib.Parse number (if region = "" then "US" else region) = (n, none)) :
    (∀ rec_ err, ParsePhone lib number region lang = .ok (rec_, err) →
      (∀ a b c d, SplitPhone (lib.Format n .INTERNATIONAL) = [a, b, c, d] →
        rec_.CountryCode = a ∧ rec_.NDC = b ∧ rec_.LDC = c ∧ rec_.Local = d) ∧
      (∀ a b c, SplitPhone (lib.Format n .INTERNATIONAL) = [a, b, c] →
        rec_.CountryCode = a ∧ rec_.NDC = b ∧ rec_.LDC = "" ∧ rec_.Local = c)) ∧
    (lib.GetTimezonesForNumber n ≠ ([], none) →
      ((SplitPhone (lib.Format n .INTERNATIONAL)).length = 3 ∨
        (SplitPhone (lib.Format n .INTERNATIONAL)).length = 4) →
      ∃ rec_, ParsePhone lib number region lang = .ok (rec_, none)) := by
  constructor
  · intro rec_ err hret
    obtain ⟨t, a', b', rest, _, hp, _, hrec⟩ :=
      ParsePhone_ok_inv lib number region lang n rec_ err hparse hret
    subst hrec
    constructor
    · intro a b c d h
      rw [hp] at h
      injection h with h1 h
      injection h with h2 h
      subst h1 h2 h
      simp [ldcField, localField]
    · intro a b c h
      rw [hp] at h
      injection h with h1 h
      injection h with h2 h
      subst h1 h2 h
      simp [ldcField, localField]
  · intro htz hlen
    exact ParsePhone_returns lib number region lang n hparse htz (by omega)

/-- C4, the two documented instances: the international format `"+1 212-555-1212"` gives
`"+1"`, `"212"`, `"555"`, `"1212"`, and `"+44 7911 123456"` gives `"+44"`, `"7911"`, an empty
`LDC` and `"123456"`. -/
theorem ParsePhone_segments_witness :
    (∃ rec_, ParsePhone usLibrary "2125551212" "US" "en" = .ok (rec_, none) ∧
      rec_.CountryCode = "+1" ∧ rec_.NDC = "212" ∧ rec_.LDC = "555" ∧ rec_.Local = "1212") ∧
    (∃ rec_, ParsePhone ukLibrary "07911 123456" "GB" "en" = .ok (rec_, none) ∧
      rec_.CountryCode = "+44" ∧ rec_.NDC = "7911" ∧ rec_.LDC = "" ∧
      rec_.Local = "123456") := by
  have hus := ParsePhone_segments usLibrary "2125551212" "US" "en" () rfl
  have huk := ParsePhone_segments ukLibrary "07911 123456" "GB" "en" () rfl
  constructor
  · obtain ⟨rec_, hret⟩ := hus.2 (by decide) (by decide)
    exact ⟨rec_, hret, (hus.1 rec_ none hret).1 "+1" "212" "555" "1212" (by decide)⟩
  · obtain ⟨rec_, hret⟩ := huk.2 (by decide) (by decide)
    exact ⟨rec_, hret, (huk.1 rec_ none hret).2 "+44" "7911" "123456" (by decide)⟩

/-- C5: when `Parse` succeeds with the parsed number `n` and `ParsePhone` returns a
`Record`, the error is `nil`, `Valid`, `International`, `NType`, `Region` and `E164` are the
library's answers for `n`, and `Geocode`, `Carrier` and `Timezone` are the answer (for the
timezone its first element) of each lookup that succeeds, the two language dependent
lookups made with the resolved language. -/
theorem ParsePhone_fields {PN E : Type} (lib : Library PN E)
    (number region lang : String) (n : PN) (rec_ : Record) (err : Option E)
    (hparse : lib.Parse number (if region = "" then "US" else region) = (n, none))
    (hret : ParsePhone lib number region lang = .ok (rec_, err)) :
    err = none ∧
    rec_.Valid = lib.IsValidNumber n ∧
    rec_.International = lib.Format n .INTERNATIONAL ∧
    rec_.NType = lib.GetNumberType n ∧
    rec_.Region = lib.GetRegionCodeForNumber n ∧
    rec_.E164 = lib.Format n .E164 ∧
    (∀ gc, lib.GetGeocodingForNumber n (if lang = "" then "en" else lang) = (gc, none) →
      rec_.Geocode = gc) ∧
    (∀ cr, lib.GetCarrierForNumber n (if lang = "" then "en" else lang) = (cr, none) →
      rec_.Carrier = cr) ∧
    (∀ tz, lib.GetTimezonesForNumber n = (tz, none) → tz.head? = some rec_.Timezone) := by
  obtain ⟨t, a, b, rest, htz, _, herr, hrec⟩ :=
    ParsePhone_ok_inv lib number region lang n rec_ err hparse hret
  subst hrec
  refine ⟨herr, rfl, rfl, rfl, rfl, rfl, ?_, ?_, ?_⟩
  · intro gc hg
    simp [hg, softField]
  · intro cr hc
    simp [hc, softField]
  · intro tz hz
    rw [hz] at htz
    exact timezoneField_ok tz t htz

/-- C5, an instance: the number `2125551212` of region `US`, with an empty language. -/
theorem ParsePhone_fields_witness :
    ∃ rec_, ParsePhone usLibrary "2125551212" "US" "" = .ok (rec_, none) ∧
      rec_.Valid = true ∧ rec_.International = "+1 212-555-1212" ∧
      rec_.E164 = "+12125551212" ∧ rec_.Geocode = "New York, NY" ∧
      ["America/New_York"].head? = some rec_.Timezone := by
  obtain ⟨rec_, hret⟩ : ∃ rec_, ParsePhone usLibrary "2125551212" "US" "" = .ok (rec_, none) :=
    ⟨_, rfl⟩
  have h := ParsePhone_fields usLibrary "2125551212" "US" "" () rec_ none rfl hret
  exact ⟨rec_, hret, h.2.1, h.2.2.1, h.2.2.2.2.2.1, h.2.2.2.2.2.2.1 "New York, NY" rfl,
    h.2.2.2.2.2.2.2.2 ["America/New_York"] rfl⟩

/-- C6: when `Parse` succeeds, each of the geocode, timezone and carrier lookups is fault
tolerant on its own.  If the lookup reports an error, every `Record` that is returned has
the field empty and comes with a `nil` error; and if the call returns a `Record` with the
lookup replaced by any other one (a successful one in particular), the call with the failing
lookup returns that same `Record` with only the field emptied, and a `nil` error.  A
`Record` is returned whenever the timezone lookup does not answer an empty list without
error and the international format has two tokens at least. -/
theorem ParsePhone_soft_failure {PN E : Type} (lib : Library PN E)
    (number region lang : String) (n : PN)
    (hparse : lib.Parse number (if region = "" then "US" else region) = (n, none)) :
    (∀ v e, lib.GetGeocodingForNumber n (if lang = "" then "en" else lang) = (v, some e) →
      (∀ rec_ err, ParsePhone lib number region lang = .ok (rec_, err) →
        err = none ∧ rec_.Geocode = "") ∧
      (∀ g rec2 err2,
        ParsePhone { lib with GetGeocodingForNumber := g } number region lang =
          .ok (rec2, err2) →
        ParsePhone lib number region lang = .ok ({ rec2 with Geocode := "" }, none))) ∧
    (∀ v e, lib.GetTimezonesForNumber n = (v, some e) →
      (∀ rec_ err, ParsePhone lib number region lang = .ok (rec_, err) →
        err = none ∧ rec_.Timezone = "") ∧
      (∀ g rec2 err2,
        ParsePhone { lib with GetTimezonesForNumber := g } number region lang =
          .ok (rec2, err2) →
        ParsePhone lib number region lang = .ok ({ rec2 with Timezone := "" }, none))) ∧
    (∀ v e, lib.GetCarrierForNumber n (if lang = "" then "en" else lang) = (v, some e) →
      (∀ rec_ err, ParsePhone lib number region lang = .ok (rec_, err) →
        err = none ∧ rec_.Carrier = "") ∧
      (∀ g rec2 err2,
        ParsePhone { lib with GetCarrierForNumber := g } number region lang =
          .ok (rec2, err2) →
        ParsePhone lib number region lang = .ok ({ rec2 with Carrier := "" }, none))) ∧
    (lib.GetTimezonesForNumber n ≠ ([], none) →
      2 ≤ (SplitPhone (lib.Format n .INTERNATIONAL)).length →
      ∃ rec_, ParsePhone lib number region lang = .ok (rec_, none)) := by
  refine ⟨?_, ?_, ?_, ?_⟩
  · intro v e hg
    constructor
    · intro rec_ err hret
      obtain ⟨t, a, b, rest, _, _, herr, hrec⟩ :=
        ParsePhone_ok_inv lib number region lang n rec_ err hparse hret
      subst hrec
      exact ⟨herr, by simp [hg, softField]⟩
    · intro g rec2 err2 hret
      obtain ⟨t, a, b, rest, htz, hp, _, hrec⟩ :=
        ParsePhone_ok_inv { lib with GetGeocodingForNumber := g } number region lang n rec2 err2
          hparse hret
      subst hrec
      rw [ParsePhone_success lib number region lang n t a b rest hparse htz hp]
      simp [hg, softField]
  · intro v e hz
    constructor
    · intro rec_ err hret
      obtain ⟨t, a, b, rest, htz, _, herr, hrec⟩ :=
        ParsePhone_ok_inv lib number region lang n rec_ err hparse hret
      subst hrec
      rw [hz, timezoneField_error] at htz
      injection htz with htz
      exact ⟨herr, htz.symm⟩
    · intro g rec2 err2 hret
      obtain ⟨t, a, b, rest, _, hp, _, hrec⟩ :=
        ParsePhone_ok_inv { lib with GetTimezonesForNumber := g } number region lang n rec2 err2
          hparse hret
      subst hrec
      rw [ParsePhone_success lib number region lang n "" a b rest hparse
        (by rw [hz, timezoneField_error]) hp]
  · intro v e hc
    constructor
    · intro rec_ err hret
      obtain ⟨t, a, b, rest, _, _, herr, hrec⟩ :=
        ParsePhone_ok_inv lib number region lang n rec_ err hparse hret
      subst hrec
      exact ⟨herr, by simp [hc, softField]⟩
    · intro g rec2 err2 hret
      obtain ⟨t, a, b, rest, htz, hp, _, hrec⟩ :=
        ParsePhone_ok_inv { lib with GetCarrierForNumber := g } number region lang n rec2 err2
          hparse hret
      subst hrec
      rw [ParsePhone_success lib number region lang n t a b rest hparse htz hp]
      simp [hc, softField]
  · intro htz hlen
    exact ParsePhone_returns lib number region lang n hparse htz hlen

/-- C6, an instance: with a geocoding lookup that fails, the `Record` for `2125551212` is
the one obtained with a successful lookup, `Geocode` emptied, and the error is `nil`. -/
theorem ParsePhone_soft_failure_witness :
    ∃ rec2, ParsePhone usLibrary "2125551212" "US" "en" = .ok (rec2, none) ∧
      rec2.Geocode = "New York, NY" ∧
      ParsePhone usLibraryNoGeocode "2125551212" "US" "en" =
        .ok ({ rec2 with Geocode := "" }, none) := by
  obtain ⟨rec2, hret⟩ : ∃ rec2, ParsePhone usLibrary "2125551212" "US" "en" = .ok (rec2, none) :=
    ⟨_, rfl⟩
  have h := (ParsePhone_soft_failure usLibraryNoGeocode "2125551212" "US" "en" () rfl).1
    "" "no geocoding data" rfl
  refine ⟨rec2, hret, ?_, h.2 (fun _ _ => ("New York, NY", none)) rec2 none hret⟩
  injection hret with hret
  injection hret with hrec
  rw [← hrec]
  rfl

/-- C7, on the code: no `Record` that `ParsePhone` returns has a `Language` other than the
empty string, whatever the `lang` argument: no statement of `ParsePhone` assigns the
field. -/
theorem ParsePhone_Language_empty {PN E : Type} (lib : Library PN E)
    (number region lang : String) (rec_ : Record) (err : Option E)
    (hret : ParsePhone lib number region lang = .ok (rec_, err)) :
    rec_.Language = "" := by
  rcases hparse : lib.Parse number (if region = "" then "US" else region) with ⟨n, _ | e⟩
  · obtain ⟨t, a, b, rest, _, _, _, hrec⟩ :=
      ParsePhone_ok_inv lib number region lang n rec_ err hparse hret
    subst hrec
    rfl
  · rw [ParsePhone_parse_error lib number region lang n e hparse] at hret
    injection hret with hret
    injection hret with hrec
    rw [← hrec]
    rfl

/-- C7, the failing input: `ParsePhone("2125551212", "US", "en")` returns a `Record` with a
`nil` error whose `Language` is empty, not `"en"`. -/
theorem ParsePhone_Language_empty_witness :
    ∃ rec_, ParsePhone usLibrary "2125551212" "US" "en" = .ok (rec_, none) ∧
      rec_.Language = "" ∧ rec_.Language ≠ "en" := by
  obtain ⟨rec_, hret⟩ : ∃ rec_, ParsePhone usLibrary "2125551212" "US" "en" = .ok (rec_, none) :=
    ⟨_, rfl⟩
  have h := ParsePhone_Language_empty usLibrary "2125551212" "US" "en" rec_ none hret
  exact ⟨rec_, hret, h, by rw [h]; decide⟩

theorem ldcField_of_length (parts : List String) (h3 : parts.length ≠ 3)
    (h4 : parts.length ≠ 4) : ldcField parts = "" ∧ localField parts = "" := by
  rcases parts with _ | ⟨a, _ | ⟨b, _ | ⟨c, _ | ⟨d, _ | ⟨e, rest⟩⟩⟩⟩⟩ <;>
    simp [ldcField, localField] at h3 h4 ⊢

/-- C8 (as amended): when `Parse` succeeds and `SplitPhone` of the international format
yields a token count other than 3 or 4, every `Record` that `ParsePhone` returns comes
with a `nil` error and has `LDC` and `Local` empty; and with two tokens at least (2, or 5
and more), unless the timezone lookup answers an empty list without error, such a `Record`
is returned. -/
theorem ParsePhone_unclassified_count {PN E : Type} (lib : Library PN E)
    (number region lang : String) (n : PN)
    (hparse : lib.Parse number (if region = "" then "US" else region) = (n, none))
    (h3 : (SplitPhone (lib.Format n .INTERNATIONAL)).length ≠ 3)
    (h4 : (SplitPhone (lib.Format n .INTERNATIONAL)).length ≠ 4) :
    (∀ rec_ err, ParsePhone lib number region lang = .ok (rec_, err) →
      err = none ∧ rec_.LDC = "" ∧ rec_.Local = "") ∧
    (2 ≤ (SplitPhone (lib.Format n .INTERNATIONAL)).length →
      lib.GetTimezonesForNumber n ≠ ([], none) →
      ∃ rec_, ParsePhone lib number region lang = .ok (rec_, none) ∧
        rec_.LDC = "" ∧ rec_.Local = "") := by
  have key : ∀ rec_ err, ParsePhone lib number region lang = .ok (rec_, err) →
      err = none ∧ rec_.LDC = "" ∧ rec_.Local = "" := by
    intro rec_ err hret
    obtain ⟨t, a, b, rest, _, hp, herr, hrec⟩ :=
      ParsePhone_ok_inv lib number region lang n rec_ err hparse hret
    subst hrec
    rw [hp] at h3 h4
    exact ⟨herr, ldcField_of_length (a :: b :: rest) h3 h4⟩
  refine ⟨key, ?_⟩
  intro hlen htz
  obtain ⟨rec_, hret⟩ := ParsePhone_returns lib number region lang n hparse htz hlen
  exact ⟨rec_, hret, (key rec_ none hret).2⟩

/-- C8, an instance: the six tokens of the international format of a French number. -/
theorem ParsePhone_unclassified_count_witness :
    (SplitPhone (frLibrary.Format () .INTERNATIONAL)).length = 6 ∧
    ∃ rec_, ParsePhone frLibrary "0123456789" "FR" "fr" = .ok (rec_, none) ∧
      rec_.LDC = "" ∧ rec_.Local = "" :=
  ⟨by decide, (ParsePhone_unclassified_count frLibrary "0123456789" "FR" "fr" () rfl
    (by decide) (by decide)).2 (by decide) (by decide)⟩

/-- C8, as stated, fails: with a single token `Parse` succeeds and the token count is not
3 or 4, yet `ParsePhone` returns no `Record`: `parts[1]` is out of range. -/
theorem ParsePhone_one_token_counterexample :
    oneTokenLibrary.Parse "2125551212" (if "US" = "" then "US" else "US") = ((), none) ∧
    SplitPhone (oneTokenLibrary.Format () .INTERNATIONAL) = ["+12125551212"] ∧
    ParsePhone oneTokenLibrary "2125551212" "US" "en" = .error (.indexOutOfRange 1 1) :=
  ⟨rfl, by decide, rfl⟩

/-- C9 (as amended): when `Parse` succeeds, every `Record` that `ParsePhone` returns has
`CountryCode` and `NDC` equal to the first two tokens of `SplitPhone` of the international
format, both non-empty; such a `Record` is returned whenever there are two tokens at least
and the timezone lookup does not answer an empty list without error. -/
theorem ParsePhone_CountryCode_NDC {PN E : Type} (lib : Library PN E)
    (number region lang : String) (n : PN)
    (hparse : lib.Parse number (if region = "" then "US" else region) = (n, none)) :
    (∀ rec_ err, ParsePhone lib number region lang = .ok (rec_, err) →
      ∃ rest, SplitPhone (lib.Format n .INTERNATIONAL) = rec_.CountryCode :: rec_.NDC :: rest ∧
        rec_.CountryCode ≠ "" ∧ rec_.NDC ≠ "") ∧
    (2 ≤ (SplitPhone (lib.Format n .INTERNATIONAL)).length →
      lib.GetTimezonesForNumber n ≠ ([], none) →
      ∃ rec_, ParsePhone lib number region lang = .ok (rec_, none) ∧
        rec_.CountryCode ≠ "" ∧ rec_.NDC ≠ "") := by
  have key : ∀ rec_ err, ParsePhone lib number region lang = .ok (rec_, err) →
      ∃ rest, SplitPhone (lib.Format n .INTERNATIONAL) = rec_.CountryCode :: rec_.NDC :: rest ∧
        rec_.CountryCode ≠ "" ∧ rec_.NDC ≠ "" := by
    intro rec_ err hret
    obtain ⟨t, a, b, rest, _, hp, _, hrec⟩ :=
      ParsePhone_ok_inv lib number region lang n rec_ err hparse hret
    subst hrec
    refine ⟨rest, hp, ?_, ?_⟩
    · exact SplitPhone_token_ne_empty (lib.Format n .INTERNATIONAL) a (by rw [hp]; simp)
    · exact SplitPhone_token_ne_empty (lib.Format n .INTERNATIONAL) b (by rw [hp]; simp)
  refine ⟨key, ?_⟩
  intro hlen htz
  obtain ⟨rec_, hret⟩ := ParsePhone_returns lib number region lang n hparse htz hlen
  obtain ⟨_, _, h1, h2⟩ := key rec_ none hret
  exact ⟨rec_, hret, h1, h2⟩

/-- C9, an instance: the number `07911 123456` of region `GB`. -/
theorem ParsePhone_CountryCode_NDC_witness :
    ∃ rec_, ParsePhone ukLibrary "07911 123456" "GB" "en" = .ok (rec_, none) ∧
      rec_.CountryCode ≠ "" ∧ rec_.NDC ≠ "" :=
  (ParsePhone_CountryCode_NDC ukLibrary "07911 123456" "GB" "en" () rfl).2
    (by decide) (by decide)

/-- C9, as stated, fails: `Parse` succeeds, the international format has no token, and
`ParsePhone` returns no `Record` at all: `parts[0]` is out of range. -/
theorem ParsePhone_no_token_counterexample :
    noTokenLibrary.Parse "2125551212" (if "US" = "" then "US" else "US") = ((), none) ∧
    SplitPhone (noTokenLibrary.Format () .INTERNATIONAL) = [] ∧
    ParsePhone noTokenLibrary "2125551212" "US" "en" = .error (.indexOutOfRange 0 0) :=
  ⟨rfl, by decide, rfl⟩

/-- C10 (as amended): for every `Record` that `ParsePhone` returns with a `nil` error after
a successful `Parse`, exactly one of three cases holds, by the number of tokens of the
international format: four tokens, `LDC` and `Local` both non-empty; three tokens, `Local`
non-empty and `LDC` empty; any other count (two, or five and more), `LDC` and `Local` both
empty. -/
theorem ParsePhone_LDC_Local {PN E : Type} (lib : Library PN E)
    (number region lang : String) (n : PN) (rec_ : Record)
    (hparse : lib.Parse number (if region = "" then "US" else region) = (n, none))
    (hret : ParsePhone lib number region lang = .ok (rec_, none)) :
    ((SplitPhone (lib.Format n .INTERNATIONAL)).length = 4 ∧
      rec_.LDC ≠ "" ∧ rec_.Local ≠ "") ∨
    ((SplitPhone (lib.Format n .INTERNATIONAL)).length = 3 ∧
      rec_.LDC = "" ∧ rec_.Local ≠ "") ∨
    (2 ≤ (SplitPhone (lib.Format n .INTERNATIONAL)).length ∧
      (SplitPhone (lib.Format n .INTERNATIONAL)).length ≠ 3 ∧
      (SplitPhone (lib.Format n .INTERNATIONAL)).length ≠ 4 ∧
      rec_.LDC = "" ∧ rec_.Local = "") := by
  obtain ⟨t, a, b, rest, _, hp, _, hrec⟩ :=
    ParsePhone_ok_inv lib number region lang n rec_ none hparse hret
  subst hrec
  have hne : ∀ x ∈ a :: b :: rest, x ≠ "" := fun x hx =>
    SplitPhone_token_ne_empty (lib.Format n .INTERNATIONAL) x (by rw [hp]; exact hx)
  rw [hp]
  rcases rest with _ | ⟨c, _ | ⟨d, _ | ⟨e, rest2⟩⟩⟩
  · right; right
    simp [ldcField, localField]
  · right; left
    have hc : c ≠ "" := hne c (by simp)
    simp [ldcField, localField, hc]
  · left
    have hc : c ≠ "" := hne c (by simp)
    have hd : d ≠ "" := hne d (by simp)
    simp [ldcField, localField, hc, hd]
  · right; right
    simp [ldcField, localField]

/-- C10, an instance: the four tokens of the number `2125551212` of region `US`. -/
theorem ParsePhone_LDC_Local_witness :
    ∃ rec_, ParsePhone usLibrary "2125551212" "US" "en" = .ok (rec_, none) ∧
      rec_.LDC ≠ "" ∧ rec_.Local ≠ "" := by
  obtain ⟨rec_, hret⟩ : ∃ rec_, ParsePhone usLibrary "2125551212" "US" "en" = .ok (rec_, none) :=
    ⟨_, rfl⟩
  rcases ParsePhone_LDC_Local usLibrary "2125551212" "US" "en" () rec_ rfl hret with
    h | h | h
  · exact ⟨rec_, hret, h.2⟩
  · exact absurd h.1 (by decide)
  · exact absurd h.2.2.1 (by decide)

/-- C10, as stated, fails: for the six tokens of the international format of a French
number `ParsePhone` returns a `Record` with a `nil` error whose `Local` is empty, so that
neither "`LDC` and `Local` both non-empty" nor "`Local` non-empty and `LDC` empty" holds. -/
theorem ParsePhone_LDC_Local_counterexample :
    ∃ rec_, ParsePhone frLibrary "0123456789" "FR" "fr" = .ok (rec_, none) ∧
      ¬ ((rec_.LDC ≠ "" ∧ rec_.Local ≠ "") ∨ (rec_.Local ≠ "" ∧ rec_.LDC = "")) :=
  ⟨_, rfl, by decide⟩

/-- C11 (as amended): when `Parse` succeeds, a timezone lookup that reports an error leaves
`Timezone` empty and the call goes on, returning a `Record` with a `nil` error when there
are two tokens at least; a lookup that succeeds with a non-empty list sets `Timezone` to
its first element.  A lookup that succeeds with an empty list is not taken as a failed
lookup: `tz[0]` is out of range and the call ends in that panic, without a `Record`. -/
theorem ParsePhone_timezone_lookup {PN E : Type} (lib : Library PN E)
    (number region lang : String) (n : PN)
    (hparse : lib.Parse number (if region = "" then "US" else region) = (n, none)) :
    (∀ tz e, lib.GetTimezonesForNumber n = (tz, some e) →
      (∀ rec_ err, ParsePhone lib number region lang = .ok (rec_, err) →
        err = none ∧ rec_.Timezone = "") ∧
      (2 ≤ (SplitPhone (lib.Format n .INTERNATIONAL)).length →
        ∃ rec_, ParsePhone lib number region lang = .ok (rec_, none) ∧ rec_.Timezone = "")) ∧
    (∀ t tz, lib.GetTimezonesForNumber n = (t :: tz, none) →
      (∀ rec_ err, ParsePhone lib number region lang = .ok (rec_, err) →
        err = none ∧ rec_.Timezone = t) ∧
      (2 ≤ (SplitPhone (lib.Format n .INTERNATIONAL)).length →
        ∃ rec_, ParsePhone lib number region lang = .ok (rec_, none) ∧ rec_.Timezone = t)) ∧
    (lib.GetTimezonesForNumber n = ([], none) →
      ParsePhone lib number region lang = .error (.indexOutOfRange 0 0)) := by
  have key : ∀ t, timezoneField (lib.GetTimezonesForNumber n) = some t →
      (∀ rec_ err, ParsePhone lib number region lang = .ok (rec_, err) →
        err = none ∧ rec_.Timezone = t) ∧
      (2 ≤ (SplitPhone (lib.Format n .INTERNATIONAL)).length →
        ∃ rec_, ParsePhone lib number region lang = .ok (rec_, none) ∧ rec_.Timezone = t) := by
    intro t ht
    have h1 : ∀ rec_ err, ParsePhone lib number region lang = .ok (rec_, err) →
        err = none ∧ rec_.Timezone = t := by
      intro rec_ err hret
      obtain ⟨t2, a, b, rest, htz, _, herr, hrec⟩ :=
        ParsePhone_ok_inv lib number region lang n rec_ err hparse hret
      subst hrec
      rw [ht] at htz
      injection htz with htz
      exact ⟨herr, htz.symm⟩
    refine ⟨h1, ?_⟩
    intro hlen
    rcases hp : SplitPhone (lib.Format n .INTERNATIONAL) with _ | ⟨a, _ | ⟨b, rest⟩⟩
    · simp [hp] at hlen
    · simp [hp] at hlen
    · have hret := ParsePhone_success lib number region lang n t a b rest hparse ht hp
      exact ⟨_, hret, (h1 _ none hret).2⟩
  refine ⟨?_, ?_, ?_⟩
  · intro tz e hz
    exact key "" (by rw [hz]; rfl)
  · intro t tz hz
    exact key t (by rw [hz]; simp [timezoneField])
  · intro hz
    exact ParsePhone_timezone_panic lib number region lang n hparse (by rw [hz]; rfl)

/-- C11, two instances: for the number `2125551212` a timezone lookup that reports an
error gives a `Record` with an empty `Timezone`, and one that answers an empty list
without error gives the panic. -/
theorem ParsePhone_timezone_lookup_witness :
    (∃ rec_, ParsePhone usLibraryTimezoneError "2125551212" "US" "en" = .ok (rec_, none) ∧
      rec_.Timezone = "") ∧
    ParsePhone usLibraryNoTimezone "2125551212" "US" "en" = .error (.indexOutOfRange 0 0) :=
  ⟨((ParsePhone_timezone_lookup usLibraryTimezoneError "2125551212" "US" "en" () rfl).1
      [] "no timezone data" rfl).2 (by decide),
    (ParsePhone_timezone_lookup usLibraryNoTimezone "2125551212" "US" "en" () rfl).2.2 rfl⟩

/-- C11, as stated, fails: `Parse` succeeds, the timezone lookup answers an empty list
without error, and `ParsePhone` returns no `Record` with an empty `Timezone`: it ends in the
panic of `tz[0]`. -/
theorem ParsePhone_empty_timezones_counterexample :
    usLibraryNoTimezone.Parse "2125551212" (if "US" = "" then "US" else "US") = ((), none) ∧
    usLibraryNoTimezone.GetTimezonesForNumber () = ([], none) ∧
    ParsePhone usLibraryNoTimezone "2125551212" "US" "en" = .error (.indexOutOfRange 0 0) ∧
    ¬ ∃ rec_ err, ParsePhone usLibraryNoTimezone "2125551212" "US" "en" = .ok (rec_, err) :=
  ⟨rfl, rfl, rfl, fun ⟨_, _, h⟩ => by cases h⟩

/-- C12 (as amended): every character of every token of `SplitPhone s` is `+` or numeric
in the sense of `unicode.IsNumber`; when the numeric characters of `s` are all among
`'0'..'9'` it is `+` or a decimal digit; and when no `+` of `s` directly follows a kept
character (a `+` or a numeric one), a `+` occurs in a token at its first position only. -/
theorem SplitPhone_token_chars (s : String) :
    (∀ t ∈ SplitPhone s, ∀ c ∈ t.data, c = '+' ∨ unicode.IsNumber c = true) ∧
    ((∀ c ∈ s.data, unicode.IsNumber c = true → ('0' ≤ c ∧ c ≤ '9')) →
      ∀ t ∈ SplitPhone s, ∀ c ∈ t.data, c = '+' ∨ ('0' ≤ c ∧ c ≤ '9')) ∧
    ((∀ pre x post, s.data = pre ++ x :: '+' :: post → isNumericOrPlus x = false) →
      ∀ t ∈ SplitPhone s, ∀ c ∈ t.data.tail, c ≠ '+') := by
  have h1 : ∀ t ∈ SplitPhone s, ∀ c ∈ t.data, c = '+' ∨ unicode.IsNumber c = true := by
    intro t ht c hc
    have := SplitPhone_token_kept s t ht c hc
    simpa [isNumericOrPlus] using this
  refine ⟨h1, ?_, SplitPhone_plus_leading s⟩
  intro hdec t ht c hc
  rcases h1 t ht c hc with h | h
  · exact Or.inl h
  · exact Or.inr (hdec c ((SplitPhone_token_segment s t ht).subset hc) h)

/-- C12, an instance: in the international format `"+1 212-555-1212"` the only `+` starts
the string, and every token is made of decimal digits after a possible leading `+`. -/
theorem SplitPhone_token_chars_witness :
    (∀ t ∈ SplitPhone "+1 212-555-1212", ∀ c ∈ t.data, c = '+' ∨ ('0' ≤ c ∧ c ≤ '9')) ∧
    (∀ t ∈ SplitPhone "+1 212-555-1212", ∀ c ∈ t.data.tail, c ≠ '+') :=
  ⟨(SplitPhone_token_chars "+1 212-555-1212").2.1 (by decide),
    (SplitPhone_token_chars "+1 212-555-1212").2.2 (fun pre x post h =>
      absurd (plus_mem_tail_of_eq _ pre post x h) (by decide))⟩

/-- C12, as stated, fails: `SplitPhone "1+2"` is the single token `"1+2"`, in which `+`
stands at the second position. -/
theorem SplitPhone_inner_plus_counterexample :
    SplitPhone "1+2" = ["1+2"] ∧ "1+2".data.tail = ['+', '2'] := by
  decide

/-- C13: for every string `s` and every single separator character `sep` (one that is
neither `+` nor numeric, such as a space or `-`), splitting the tokens of `s` joined with
`sep` gives the tokens of `s` again, so that the joined string is a fixed point of
splitting and joining. -/
theorem SplitPhone_resplit (s : String) (sep : Char)
    (hplus : sep ≠ '+') (hnum : unicode.IsNumber sep = false) :
    SplitPhone (strings.Join (SplitPhone s) (String.singleton sep)) = SplitPhone s ∧
    strings.Join (SplitPhone (strings.Join (SplitPhone s) (String.singleton sep)))
      (String.singleton sep) = strings.Join (SplitPhone s) (String.singleton sep) := by
  have hsep : isNumericOrPlus sep = false := by simp [isNumericOrPlus, hplus, hnum]
  have h := SplitPhone_Join s sep hsep
  exact ⟨h, by rw [h]⟩

/-- C13, two instances: the tokens of `"+1 212-555-1212"` joined with a space and with a
hyphen. -/
theorem SplitPhone_resplit_witness :
    strings.Join (SplitPhone "+1 212-555-1212") (String.singleton ' ') = "+1 212 555 1212" ∧
    SplitPhone (strings.Join (SplitPhone "+1 212-555-1212") (String.singleton ' ')) =
      SplitPhone "+1 212-555-1212" ∧
    SplitPhone (strings.Join (SplitPhone "+1 212-555-1212") (String.singleton '-')) =
      SplitPhone "+1 212-555-1212" :=
  ⟨by decide, (SplitPhone_resplit "+1 212-555-1212" ' ' (by decide) (by decide)).1,
    (SplitPhone_resplit "+1 212-555-1212" '-' (by decide) (by decide)).1⟩

/-- C14: `SplitPhone` gives the documented results on the documented inputs, and the empty
sequence on every string made of separator characters only. -/
theorem SplitPhone_documented :
    SplitPhone "" = [] ∧
    SplitPhone "+1 212-555-1212" = ["+1", "212", "555", "1212"] ∧
    SplitPhone "+44 7911 123456" = ["+44", "7911", "123456"] ∧
    SplitPhone "+886 255 555 1212" = ["+886", "255", "555", "1212"] ∧
    SplitPhone "  --  " = [] ∧
    ∀ s : String, (∀ c ∈ s.data, c ≠ '+' ∧ unicode.IsNumber c = false) →
      SplitPhone s = [] := by
  refine ⟨by decide, by decide, by decide, by decide, by decide, ?_⟩
  intro s h
  refine (SplitPhone_eq_nil_iff s).mpr ?_
  intro c hc
  simp [isNumericOrPlus, (h c hc).1, (h c hc).2]

/-- C14, an instance of the last part: a string of spaces, hyphens, brackets and dots. -/
theorem SplitPhone_documented_witness :
    (∀ c ∈ " -().- ".data, c ≠ '+' ∧ unicode.IsNumber c = false) ∧
    SplitPhone " -().- " = [] :=
  ⟨by decide, SplitPhone_documented.2.2.2.2.2 " -().- " (by decide)⟩

/-- C15: with `(n, perr)` the answer of `Parse` and `(tz, terr)` the answer of the timezone
lookup for `n`, `ParsePhone` returns (it does not end in an index out of range panic) if and
only if `Parse` failed, or `SplitPhone` of the international format has two tokens at least
and the timezone lookup reported an error or answered one candidate at least; and when
`Parse` succeeded every returned error is `nil`. -/
theorem ParsePhone_returns_iff {PN E : Type} (lib : Library PN E)
    (number region lang : String) (n : PN) (perr : Option E) (tz : List String)
    (terr : Option E)
    (hparse : lib.Parse number (if region = "" then "US" else region) = (n, perr))
    (htz : lib.GetTimezonesForNumber n = (tz, terr)) :
    ((∃ rec_ err, ParsePhone lib number region lang = .ok (rec_, err)) ↔
      (perr ≠ none ∨
        (2 ≤ (SplitPhone (lib.Format n .INTERNATIONAL)).length ∧
          (terr ≠ none ∨ tz ≠ [])))) ∧
    (perr = none → ∀ rec_ err, ParsePhone lib number region lang = .ok (rec_, err) →
      err = none) ∧
    ((¬ ∃ rec_ err, ParsePhone lib number region lang = .ok (rec_, err)) →
      ∃ i len, ParsePhone lib number region lang = .error (.indexOutOfRange i len)) := by
  refine ⟨?_, ?_, ?_⟩
  · rcases perr with _ | e
    · constructor
      · rintro ⟨rec_, err, hret⟩
        obtain ⟨t, a, b, rest, ht, hp, _, _⟩ :=
          ParsePhone_ok_inv lib number region lang n rec_ err hparse hret
        refine Or.inr ⟨by rw [hp]; simp, ?_⟩
        rw [htz] at ht
        rcases terr with _ | e
        · right
          rintro rfl
          simp [timezoneField] at ht
        · left; simp
      · rintro (h | ⟨hlen, h⟩)
        · exact absurd rfl h
        · have hne : lib.GetTimezonesForNumber n ≠ ([], none) := by
            rw [htz]
            intro heq
            injection heq with h1 h2
            rcases h with h | h
            · exact h h2
            · exact h h1
          obtain ⟨rec_, hret⟩ := ParsePhone_returns lib number region lang n hparse hne hlen
          exact ⟨rec_, none, hret⟩
    · constructor
      · intro _; left; simp
      · intro _
        exact ⟨_, _, ParsePhone_parse_error lib number region lang n e hparse⟩
  · intro hp rec_ err hret
    subst hp
    obtain ⟨_, _, _, _, _, _, herr, _⟩ :=
      ParsePhone_ok_inv lib number region lang n rec_ err hparse hret
    exact herr
  · intro hno
    rcases hret : ParsePhone lib number region lang with p | ⟨rec_, err⟩
    · rcases p with ⟨i, len⟩
      exact ⟨i, len, rfl⟩
    · exact absurd ⟨rec_, err, hret⟩ hno

/-- C15, three instances: the number `2125551212` is returned for; with a single token and
with an empty list of timezones without error the call ends in a panic. -/
theorem ParsePhone_returns_iff_witness :
    (∃ rec_ err, ParsePhone usLibrary "2125551212" "US" "en" = .ok (rec_, err)) ∧
    (¬ ∃ rec_ err, ParsePhone oneTokenLibrary "2125551212" "US" "en" = .ok (rec_, err)) ∧
    (¬ ∃ rec_ err, ParsePhone usLibraryNoTimezone "2125551212" "US" "en" = .ok (rec_, err)) :=
  ⟨(ParsePhone_returns_iff usLibrary "2125551212" "US" "en" () none ["America/New_York"] none
      rfl rfl).1.mpr (Or.inr ⟨by decide, Or.inr (by decide)⟩),
    fun h => by
      have := (ParsePhone_returns_iff oneTokenLibrary "2125551212" "US" "en" () none
        ["America/New_York"] none rfl rfl).1.mp h
      revert this
      decide,
    fun h => by
      have := (ParsePhone_returns_iff usLibraryNoTimezone "2125551212" "US" "en" () none
        [] none rfl rfl).1.mp h
      revert this
      decide⟩

/-- C16: `SplitPhone s` loses and reorders no kept character: every token is non-empty and
made of kept characters only (`+` or numeric ones, those the splitter does not split at),
the tokens concatenated in order are `s` with every separator character removed, and there
is no token if and only if `s` has no kept character. -/
theorem SplitPhone_keeps_characters (s : String) :
    (∀ t ∈ SplitPhone s, t ≠ "" ∧ ∀ c ∈ t.data, isNumericOrPlus c = true) ∧
    String.join (SplitPhone s) = String.mk (s.data.filter isNumericOrPlus) ∧
    (SplitPhone s = [] ↔ ∀ c ∈ s.data, isNumericOrPlus c = false) := by
  refine ⟨fun t ht => ⟨SplitPhone_token_ne_empty s t ht, SplitPhone_token_kept s t ht⟩, ?_,
    SplitPhone_eq_nil_iff s⟩
  rw [String.join_eq, SplitPhone_flatten]
